import Mathlib

/-!
Shallow embedding of the real-time event distribution subsystem of the
VerifiAI backend (`src/backend/src/api/routes/websocket.py` and
`src/backend/src/api/dependencies.py`).

Python dictionaries are modelled as association lists (`List (String × α)`)
with first-match lookup and in-place first-match update, which is the
observable behaviour of a `dict` whose keys are unique; Python sets of
strings are modelled as duplicate-free lists where `add` appends when absent
and `discard` filters.  WebSocket connection handles are modelled as natural
numbers.  A send to a connection can fail; failure is modelled by a
predicate `fails : Nat → Bool` on connection handles, and the `try/except`
around each `send_text` call is modelled by recording the failing handle in
an error log instead of delivering, the iteration continuing (the routines
are total: no exception propagates).
-/

namespace VerifiAI

/-- First-match lookup in an association list (Python `d[k]` / `k in d`). -/
def alistGet {α : Type} (l : List (String × α)) (k : String) : Option α :=
  match l with
  | [] => none
  | (k', v) :: rest => if k' = k then some v else alistGet rest k

/-- Update the first entry for `k` in place, appending a fresh entry when the
key is absent (Python `d[k] = v`). -/
def alistSet {α : Type} (l : List (String × α)) (k : String) (v : α) :
    List (String × α) :=
  match l with
  | [] => [(k, v)]
  | (k', w) :: rest =>
      if k' = k then (k', v) :: rest else (k', w) :: alistSet rest k v

/-- Delete the first entry for `k` (Python `del d[k]`, a no-op when absent). -/
def alistErase {α : Type} (l : List (String × α)) (k : String) :
    List (String × α) :=
  match l with
  | [] => []
  | (k', w) :: rest =>
      if k' = k then rest else (k', w) :: alistErase rest k

/-- Python `set.add`: append when absent, no-op when present. -/
def setAdd (s : List String) (x : String) : List String :=
  if x ∈ s then s else s ++ [x]

/-- Python `set.discard`: remove the element when present, no-op otherwise. -/
def setDiscard (s : List String) (x : String) : List String :=
  s.filter (fun y => y ≠ x)

/-- The mutable state of `ConnectionManager`: `active_connections` maps a
user id to the list of that user's open WebSocket handles, and
`subscriptions` maps a topic to the set of subscribed user ids. -/
structure Manager where
  active_connections : List (String × List Nat)
  subscriptions : List (String × List String)
deriving Repr, DecidableEq

/-- The freshly constructed manager (`ConnectionManager.__init__`). -/
def Manager.empty : Manager := { active_connections := [], subscriptions := [] }

/-- `ConnectionManager.connect`: accept and register a new connection.  The
source creates an empty list for a new user id and appends the handle. -/
def Manager.connect (m : Manager) (ws : Nat) (user_id : String) : Manager :=
  let conns := (alistGet m.active_connections user_id).getD []
  { m with active_connections :=
      alistSet m.active_connections user_id (conns ++ [ws]) }

/-- `ConnectionManager.disconnect`: remove the handle from the user's list
when present, delete the key when the list becomes empty, and then discard
the user id from the subscriber set of every topic (the source performs this
last step unconditionally, outside the `if user_id in active_connections`
block). -/
def Manager.disconnect (m : Manager) (ws : Nat) (user_id : String) : Manager :=
  let ac :=
    match alistGet m.active_connections user_id with
    | none => m.active_connections
    | some conns =>
        let conns' := if ws ∈ conns then conns.erase ws else conns
        if conns'.isEmpty then alistErase m.active_connections user_id
        else alistSet m.active_connections user_id conns'
  { active_connections := ac,
    subscriptions := m.subscriptions.map (fun p => (p.1, setDiscard p.2 user_id)) }

/-- `ConnectionManager.subscribe`: create the topic's subscriber set when
absent and add the user id to it. -/
def Manager.subscribe (m : Manager) (user_id topic : String) : Manager :=
  let subs := (alistGet m.subscriptions topic).getD []
  { m with subscriptions := alistSet m.subscriptions topic (setAdd subs user_id) }

/-- `ConnectionManager.unsubscribe`: discard the user id from the topic's
subscriber set when the topic exists; otherwise a no-op. -/
def Manager.unsubscribe (m : Manager) (user_id topic : String) : Manager :=
  match alistGet m.subscriptions topic with
  | none => m
  | some subs =>
      { m with subscriptions := alistSet m.subscriptions topic (setDiscard subs user_id) }

/-- The snapshot of connections of an identity (empty when none). -/
def Manager.connections_for (m : Manager) (user_id : String) : List Nat :=
  (alistGet m.active_connections user_id).getD []

/-- The snapshot of subscribers of a topic (empty when none). -/
def Manager.subscribers_of (m : Manager) (topic : String) : List String :=
  (alistGet m.subscriptions topic).getD []

/-- One attempted `await ws.send_text(...)` guarded by `try/except`: the
outcome is success (delivery) or a caught exception (logged error). -/
def trySendText (fails : Nat → Bool) (ws : Nat) : Except Nat Unit :=
  if fails ws then Except.error ws else Except.ok ()

/-- Deliver to each handle of a list in order, accumulating delivered handles
and logged failures (the loop body of `send_personal` et al.). -/
def deliverLoop (fails : Nat → Bool) (conns : List Nat) :
    List Nat × List Nat :=
  conns.foldl
    (fun acc ws =>
      match trySendText fails ws with
      | Except.ok _ => (acc.1 ++ [ws], acc.2)
      | Except.error e => (acc.1, acc.2 ++ [e]))
    ([], [])

/-- `ConnectionManager.send_personal`: deliver one message to every
connection of a user; returns (delivered handles, logged failures).  A
missing user id delivers nothing. -/
def Manager.send_personal (m : Manager) (fails : Nat → Bool) (user_id : String) :
    List Nat × List Nat :=
  match alistGet m.active_connections user_id with
  | none => ([], [])
  | some conns => deliverLoop fails conns

/-- `ConnectionManager.broadcast_to_topic`: when the topic has a subscriber
entry, iterate its subscribers, and for each subscriber that is connected
deliver to every one of its handles; returns pairs (user id, handle) that
were delivered and the pairs whose send failed.  A topic without an entry
returns immediately. -/
def Manager.broadcast_to_topic (m : Manager) (fails : Nat → Bool) (topic : String) :
    List (String × Nat) × List (String × Nat) :=
  match alistGet m.subscriptions topic with
  | none => ([], [])
  | some subs =>
      subs.foldl
        (fun acc user_id =>
          match alistGet m.active_connections user_id with
          | none => acc
          | some conns =>
              let r := deliverLoop fails conns
              (acc.1 ++ r.1.map (fun ws => (user_id, ws)),
               acc.2 ++ r.2.map (fun ws => (user_id, ws))))
        ([], [])

/-- `ConnectionManager.broadcast_all`: deliver to every handle of every
entry of `active_connections`. -/
def Manager.broadcast_all (m : Manager) (fails : Nat → Bool) :
    List (String × Nat) × List (String × Nat) :=
  m.active_connections.foldl
    (fun acc p =>
      let r := deliverLoop fails p.2
      (acc.1 ++ r.1.map (fun ws => (p.1, ws)),
       acc.2 ++ r.2.map (fun ws => (p.1, ws))))
    ([], [])

/-- Registry operations for reachability arguments: a `connect` or a
`disconnect` call on the manager. -/
inductive RegOp
  | conn (ws : Nat) (user_id : String)
  | disc (ws : Nat) (user_id : String)
deriving Repr, DecidableEq

/-- Apply one registry operation. -/
def applyRegOp (m : Manager) : RegOp → Manager
  | RegOp.conn ws uid => m.connect ws uid
  | RegOp.disc ws uid => m.disconnect ws uid

/-- Run a sequence of registry operations from the freshly constructed
manager. -/
def runRegOps (ops : List RegOp) : Manager :=
  ops.foldl applyRegOp Manager.empty

/-- The payload part of an outbound server message (the source builds these
as JSON dictionaries; the send-time timestamp is irrelevant to delivery and
omitted). -/
inductive MsgData
  | connectedData (user_id : String) (message : String) (subscriptions : List String)
  | topicData (topic : String)
  | errorData (action : Option String)
  | noData
deriving Repr, DecidableEq

/-- An outbound server message: a type tag and a payload. -/
structure OutMessage where
  type : String
  data : MsgData
deriving Repr, DecidableEq

/-- The welcome message sent by `websocket_endpoint` right after
registration and the four default subscriptions. -/
def connectedMessage (user_id : String) : OutMessage :=
  { type := "connected",
    data := MsgData.connectedData user_id
      "Connected to VerifiAI real-time updates"
      ["proofs", "agents", "settlements", "platform"] }

/-- The claims object returned by the external Clerk verifier
(`verify_clerk_token`); only the `sub` field is consulted by
`verify_ws_token`.  `none` for `sub` models a missing or falsy (empty)
subject claim. -/
structure Claims where
  sub : Option String
deriving Repr, DecidableEq

/-- The user row resolved from the database; `verify_ws_token` consults the
id and the active flag. -/
structure User where
  id : String
  is_active : Bool
deriving Repr, DecidableEq

/-- `verify_ws_token` (dependencies.py): verify the token with Clerk,
extract the subject claim, look the user up by clerk id, and return the
user only when found and active.  The external verifier and the database
lookup are parameters. -/
def verify_ws_token (verifyClerk : String → Option Claims)
    (db : String → Option User) (token : String) : Option User :=
  match verifyClerk token with
  | none => none
  | some claims =>
      match claims.sub with
      | none => none
      | some clerk_id =>
          if clerk_id = "" then none
          else
            match db clerk_id with
            | some user => if user.is_active then some user else none
            | none => none

/-- Outcome of the pre-loop part of `websocket_endpoint`: either the
connection was closed with a close code before any registration, or it was
registered and the welcome message sent. -/
inductive ConnectResult
  | rejected (closeCode : Nat) (reason : String) (m : Manager)
  | accepted (user_id : String) (m : Manager) (firstMessage : OutMessage)
deriving Repr, DecidableEq

/-- The manager state after the handshake. -/
def ConnectResult.stateOf : ConnectResult → Manager
  | ConnectResult.rejected _ _ m => m
  | ConnectResult.accepted _ m _ => m

/-- The pre-loop part of `websocket_endpoint`: verify the token; on failure
close with code 4001 leaving the registry untouched; on success register
the connection, grant the four default subscriptions and send the welcome
message. -/
def websocket_endpoint_handshake (verifyClerk : String → Option Claims)
    (db : String → Option User) (m : Manager) (ws : Nat) (token : String) :
    ConnectResult :=
  match verify_ws_token verifyClerk db token with
  | none => ConnectResult.rejected 4001 "Invalid authentication token" m
  | some user =>
      let user_id := user.id
      let m1 := m.connect ws user_id
      let m2 := m1.subscribe user_id "proofs"
      let m3 := m2.subscribe user_id "agents"
      let m4 := m3.subscribe user_id "settlements"
      let m5 := m4.subscribe user_id "platform"
      ConnectResult.accepted user_id m5 (connectedMessage user_id)

/-- One inbound client message as seen by the receive loop of
`websocket_endpoint`: either `receive_json`/`data.get` raises (invalid JSON
or a non-object payload) — `malformed` — or an object was parsed, with its
optional `action` and `topic` fields. -/
inductive Inbound
  | malformed
  | msg (action : Option String) (topic : Option String)
deriving Repr, DecidableEq

/-- Result of one iteration of the receive loop: a reply sent on the same
connection (loop continues), no reply (loop continues), or the exception
handler ran `manager.disconnect` and the loop ended. -/
inductive StepResult
  | reply (message : OutMessage) (m : Manager)
  | noReply (m : Manager)
  | disconnected (m : Manager)
deriving Repr, DecidableEq

/-- One iteration of the receive loop of `websocket_endpoint`.  A raising
receive falls to the outer `except` handler which disconnects; `ping`
answers `pong`; `subscribe`/`unsubscribe` with a truthy topic update the
registry and acknowledge; a falsy topic yields no response; any other
action is answered with an `error` message. -/
def handle_client_message (m : Manager) (ws : Nat) (user_id : String) :
    Inbound → StepResult
  | Inbound.malformed => StepResult.disconnected (m.disconnect ws user_id)
  | Inbound.msg action topic =>
      if action = some "ping" then
        StepResult.reply { type := "pong", data := MsgData.noData } m
      else if action = some "subscribe" then
        match topic with
        | some t =>
            if t = "" then StepResult.noReply m
            else
              StepResult.reply { type := "subscribed", data := MsgData.topicData t }
                (m.subscribe user_id t)
        | none => StepResult.noReply m
      else if action = some "unsubscribe" then
        match topic with
        | some t =>
            if t = "" then StepResult.noReply m
            else
              StepResult.reply { type := "unsubscribed", data := MsgData.topicData t }
                (m.unsubscribe user_id t)
        | none => StepResult.noReply m
      else
        StepResult.reply { type := "error", data := MsgData.errorData action } m

/-- State of the Redis handle as observed by `publish_via_redis`:
`absent` models `get_redis()` returning `None`; `present b` models a live
handle whose `publish` call raises when `b` is true. -/
inductive RedisState
  | absent
  | present (publishFails : Bool)
deriving Repr, DecidableEq

/-- Observable outcome of `publish_via_redis`: envelopes published to the
broker (channel name and envelope target), local deliveries and logged
per-connection failures from the direct-delivery fallback, and whether the
outer exception handler logged an error.  The function always returns
normally. -/
structure PublishOutcome where
  published : List (String × String)
  delivered : List (String × Nat)
  errors : List (String × Nat)
  errorLogged : Bool
deriving Repr, DecidableEq

/-- Python `s.startswith(pre)` on the character sequences of the strings. -/
def strStartsWith (s pre : String) : Bool := pre.data.isPrefixOf s.data

/-- Python slicing `s[n:]` on the character sequence of the string. -/
def strDrop (s : String) (n : Nat) : String := String.mk (s.data.drop n)

/-- The target dispatch shared by the fallback branch of `publish_via_redis`
and the Redis listener: `"all"` broadcasts, a `"user:"` target delivers to
that identity (`split(":", 1)[1]` equals dropping the 5 characters of the
prefix), a `"topic:"` target broadcasts to that topic (dropping the 6
characters of the prefix), anything else does nothing. -/
def dispatchLocal (m : Manager) (fails : Nat → Bool) (target : String) :
    List (String × Nat) × List (String × Nat) :=
  if target = "all" then m.broadcast_all fails
  else if strStartsWith target "user:" then
    let uid := strDrop target 5
    let r := m.send_personal fails uid
    (r.1.map (fun ws => (uid, ws)), r.2.map (fun ws => (uid, ws)))
  else if strStartsWith target "topic:" then
    m.broadcast_to_topic fails (strDrop target 6)
  else ([], [])

/-- `publish_via_redis`: with a live handle, serialize the envelope and
publish it on the well-known channel — the local manager is not invoked; a
raising publish is caught and logged by the surrounding `try/except`.  With
no handle, fall back to direct local delivery by target. -/
def publish_via_redis (m : Manager) (rs : RedisState) (fails : Nat → Bool)
    (target : String) : PublishOutcome :=
  match rs with
  | RedisState.present publishFails =>
      if publishFails then
        { published := [], delivered := [], errors := [], errorLogged := true }
      else
        { published := [("verifiai:ws:broadcast", target)], delivered := [],
          errors := [], errorLogged := false }
  | RedisState.absent =>
      let r := dispatchLocal m fails target
      { published := [], delivered := r.1, errors := r.2, errorLogged := false }

/-! ### Association-list and set-as-list lemmas -/

theorem alistGet_alistSet_self {α : Type} (l : List (String × α)) (k : String)
    (v : α) : alistGet (alistSet l k v) k = some v := by
  induction l with
  | nil => simp [alistGet, alistSet]
  | cons p rest ih =>
      obtain ⟨k', w⟩ := p
      by_cases h : k' = k
      · subst h; simp [alistGet, alistSet]
      · simp [alistGet, alistSet, h, ih]

theorem alistGet_alistSet_ne {α : Type} (l : List (String × α)) (k k2 : String)
    (v : α) (h : k2 ≠ k) : alistGet (alistSet l k v) k2 = alistGet l k2 := by
  induction l with
  | nil => simp [alistGet, alistSet, Ne.symm h]
  | cons p rest ih =>
      obtain ⟨k', w⟩ := p
      by_cases hk : k' = k
      · subst hk
        simp [alistGet, alistSet, Ne.symm h]
      · by_cases hk2 : k' = k2
        · subst hk2; simp [alistGet, alistSet, hk]
        · simp [alistGet, alistSet, hk, hk2, ih]

theorem alistSet_alistSet {α : Type} (l : List (String × α)) (k : String)
    (v w : α) : alistSet (alistSet l k v) k w = alistSet l k w := by
  induction l with
  | nil => simp [alistSet]
  | cons p rest ih =>
      obtain ⟨k', u⟩ := p
      by_cases h : k' = k
      · subst h; simp [alistSet]
      · simp [alistSet, h, ih]

theorem mem_alistSet {α : Type} (l : List (String × α)) (k : String) (v : α)
    (p : String × α) (hp : p ∈ alistSet l k v) : p ∈ l ∨ p = (k, v) := by
  induction l with
  | nil => simp [alistSet] at hp; simp [hp]
  | cons q rest ih =>
      obtain ⟨k', w⟩ := q
      by_cases h : k' = k
      · subst h
        simp [alistSet] at hp
        rcases hp with hp | hp
        · exact Or.inr (by simp [hp])
        · exact Or.inl (List.mem_cons_of_mem _ hp)
      · simp [alistSet, h] at hp
        rcases hp with hp | hp
        · exact Or.inl (by simp [hp])
        · rcases ih hp with h2 | h2
          · exact Or.inl (List.mem_cons_of_mem _ h2)
          · exact Or.inr h2

theorem mem_alistErase {α : Type} (l : List (String × α)) (k : String)
    (p : String × α) (hp : p ∈ alistErase l k) : p ∈ l := by
  induction l with
  | nil => simp [alistErase] at hp
  | cons q rest ih =>
      obtain ⟨k', w⟩ := q
      by_cases h : k' = k
      · subst h
        simp [alistErase] at hp
        exact List.mem_cons_of_mem _ hp
      · simp [alistErase, h] at hp
        rcases hp with hp | hp
        · simp [hp]
        · exact List.mem_cons_of_mem _ (ih hp)

theorem alistGet_map_discard (l : List (String × List String)) (uid k : String) :
    alistGet (l.map (fun p => (p.1, setDiscard p.2 uid))) k
      = (alistGet l k).map (fun s => setDiscard s uid) := by
  induction l with
  | nil => simp [alistGet]
  | cons p rest ih =>
      obtain ⟨k', w⟩ := p
      by_cases h : k' = k
      · subst h; simp [alistGet]
      · simp [alistGet, h, ih]

theorem alistGet_eq_none_iff {α : Type} (l : List (String × α)) (k : String) :
    alistGet l k = none ↔ k ∉ l.map Prod.fst := by
  induction l with
  | nil => simp [alistGet]
  | cons p rest ih =>
      obtain ⟨k', w⟩ := p
      by_cases h : k' = k
      · subst h; simp [alistGet]
      · simp [alistGet, h, ih, Ne.symm h]

theorem alistSet_keys {α : Type} (l : List (String × α)) (k : String) (v : α) :
    (alistSet l k v).map Prod.fst =
      if k ∈ l.map Prod.fst then l.map Prod.fst else l.map Prod.fst ++ [k] := by
  induction l with
  | nil => simp [alistSet]
  | cons p rest ih =>
      obtain ⟨k', w⟩ := p
      by_cases h : k' = k
      · subst h; simp [alistSet]
      · simp only [alistSet, if_neg h, List.map_cons]
        rw [ih]
        by_cases h2 : k ∈ rest.map Prod.fst
        · simp [h2, Ne.symm h]
        · simp [h2, Ne.symm h]

theorem alistErase_keys_sublist {α : Type} (l : List (String × α)) (k : String) :
    ((alistErase l k).map Prod.fst).Sublist (l.map Prod.fst) := by
  induction l with
  | nil => simp [alistErase]
  | cons p rest ih =>
      obtain ⟨k', w⟩ := p
      by_cases h : k' = k
      · subst h
        simp only [alistErase, if_pos rfl, List.map_cons]
        exact (List.sublist_cons_self _ _)
      · simp only [alistErase, if_neg h, List.map_cons]
        exact ih.cons₂ _

theorem alistGet_alistErase_self {α : Type} (l : List (String × α)) (k : String)
    (hnd : (l.map Prod.fst).Nodup) : alistGet (alistErase l k) k = none := by
  induction l with
  | nil => simp [alistGet, alistErase]
  | cons p rest ih =>
      obtain ⟨k', w⟩ := p
      simp only [List.map_cons, List.nodup_cons] at hnd
      by_cases h : k' = k
      · subst h
        simp only [alistErase, if_pos rfl]
        exact (alistGet_eq_none_iff rest _).mpr hnd.1
      · simp [alistErase, alistGet, h, ih hnd.2]

theorem mem_setAdd_self (s : List String) (x : String) : x ∈ setAdd s x := by
  by_cases h : x ∈ s <;> simp [setAdd, h]

theorem setAdd_of_mem (s : List String) (x : String) (h : x ∈ s) :
    setAdd s x = s := by simp [setAdd, h]

theorem mem_setDiscard (s : List String) (x y : String) :
    y ∈ setDiscard s x ↔ y ∈ s ∧ y ≠ x := by
  simp [setDiscard, List.mem_filter]

theorem not_mem_setDiscard_self (s : List String) (x : String) :
    x ∉ setDiscard s x := by
  simp [mem_setDiscard]

theorem setDiscard_setAdd (s : List String) (x : String) :
    setDiscard (setAdd s x) x = setDiscard s x := by
  by_cases h : x ∈ s
  · simp [setAdd, h]
  · simp [setAdd, h, setDiscard, List.filter_append]

theorem setDiscard_of_not_mem (s : List String) (x : String) (h : x ∉ s) :
    setDiscard s x = s := by
  refine List.filter_eq_self.mpr ?_
  intro a ha
  simp only [ne_eq, decide_eq_true_eq]
  intro hax
  exact h (hax ▸ ha)

theorem setDiscard_setDiscard (s : List String) (x : String) :
    setDiscard (setDiscard s x) x = setDiscard s x :=
  setDiscard_of_not_mem _ _ (not_mem_setDiscard_self s x)

theorem setAdd_setAdd (s : List String) (x : String) :
    setAdd (setAdd s x) x = setAdd s x :=
  setAdd_of_mem _ _ (mem_setAdd_self s x)

/-! ### Delivery-loop characterizations -/

theorem deliverLoop_foldl (fails : Nat → Bool) (conns : List Nat) (a b : List Nat) :
    conns.foldl
      (fun acc ws =>
        match trySendText fails ws with
        | Except.ok _ => (acc.1 ++ [ws], acc.2)
        | Except.error e => (acc.1, acc.2 ++ [e]))
      (a, b)
    = (a ++ conns.filter (fun ws => !fails ws),
       b ++ conns.filter (fun ws => fails ws)) := by
  induction conns generalizing a b with
  | nil => simp
  | cons ws rest ih =>
      simp only [trySendText] at ih ⊢
      by_cases h : fails ws
      · simp [h, ih, List.filter_cons]
      · simp [h, ih, List.filter_cons]

theorem deliverLoop_eq (fails : Nat → Bool) (conns : List Nat) :
    deliverLoop fails conns
      = (conns.filter (fun ws => !fails ws), conns.filter (fun ws => fails ws)) := by
  simpa [deliverLoop] using deliverLoop_foldl fails conns [] []

theorem send_personal_eq (m : Manager) (fails : Nat → Bool) (uid : String) :
    m.send_personal fails uid =
      ((m.connections_for uid).filter (fun w => !fails w),
       (m.connections_for uid).filter (fun w => fails w)) := by
  rcases h : alistGet m.active_connections uid with _ | conns
  · simp [Manager.send_personal, h, Manager.connections_for]
  · simp [Manager.send_personal, h, Manager.connections_for, deliverLoop_eq]

theorem broadcast_foldl (m : Manager) (fails : Nat → Bool) (subs : List String)
    (a b : List (String × Nat)) :
    subs.foldl
      (fun acc user_id =>
        match alistGet m.active_connections user_id with
        | none => acc
        | some conns =>
            let r := deliverLoop fails conns
            (acc.1 ++ r.1.map (fun ws => (user_id, ws)),
             acc.2 ++ r.2.map (fun ws => (user_id, ws))))
      (a, b)
    = (a ++ subs.flatMap (fun u =>
          ((m.connections_for u).filter (fun w => !fails w)).map (fun ws => (u, ws))),
       b ++ subs.flatMap (fun u =>
          ((m.connections_for u).filter (fun w => fails w)).map (fun ws => (u, ws)))) := by
  induction subs generalizing a b with
  | nil => simp
  | cons u rest ih =>
      simp only [deliverLoop_eq] at ih ⊢
      rcases hu : alistGet m.active_connections u with _ | conns
      · simp [hu, ih, Manager.connections_for]
      · simp [hu, ih, Manager.connections_for]

theorem broadcast_to_topic_eq (m : Manager) (fails : Nat → Bool) (topic : String) :
    m.broadcast_to_topic fails topic =
      ((m.subscribers_of topic).flatMap (fun u =>
          ((m.connections_for u).filter (fun w => !fails w)).map (fun ws => (u, ws))),
       (m.subscribers_of topic).flatMap (fun u =>
          ((m.connections_for u).filter (fun w => fails w)).map (fun ws => (u, ws)))) := by
  rcases h : alistGet m.subscriptions topic with _ | subs
  · simp [Manager.broadcast_to_topic, h, Manager.subscribers_of]
  · simp only [Manager.broadcast_to_topic, h, Manager.subscribers_of, Option.getD_some]
    simpa using broadcast_foldl m fails subs [] []

theorem broadcast_all_foldl (fails : Nat → Bool)
    (entries : List (String × List Nat)) (a b : List (String × Nat)) :
    entries.foldl
      (fun acc p =>
        let r := deliverLoop fails p.2
        (acc.1 ++ r.1.map (fun ws => (p.1, ws)),
         acc.2 ++ r.2.map (fun ws => (p.1, ws))))
      (a, b)
    = (a ++ entries.flatMap (fun p =>
          (p.2.filter (fun w => !fails w)).map (fun ws => (p.1, ws))),
       b ++ entries.flatMap (fun p =>
          (p.2.filter (fun w => fails w)).map (fun ws => (p.1, ws)))) := by
  induction entries generalizing a b with
  | nil => simp
  | cons p rest ih =>
      simp only [deliverLoop_eq] at ih ⊢
      simp [ih]

theorem broadcast_all_eq (m : Manager) (fails : Nat → Bool) :
    m.broadcast_all fails =
      (m.active_connections.flatMap (fun p =>
          (p.2.filter (fun w => !fails w)).map (fun ws => (p.1, ws))),
       m.active_connections.flatMap (fun p =>
          (p.2.filter (fun w => fails w)).map (fun ws => (p.1, ws)))) := by
  simpa [Manager.broadcast_all] using
    broadcast_all_foldl fails m.active_connections [] []

/-! ### Registry invariant preservation -/

theorem applyRegOp_preserves_inv (m : Manager) (op : RegOp)
    (h1 : ∀ p ∈ m.active_connections, p.2 ≠ [])
    (h2 : (m.active_connections.map Prod.fst).Nodup) :
    (∀ p ∈ (applyRegOp m op).active_connections, p.2 ≠ []) ∧
    ((applyRegOp m op).active_connections.map Prod.fst).Nodup := by
  cases op with
  | conn ws uid =>
      constructor
      · intro p hp
        simp only [applyRegOp, Manager.connect] at hp
        rcases mem_alistSet _ _ _ p hp with h | h
        · exact h1 p h
        · simp [h]
      · simp only [applyRegOp, Manager.connect]
        rw [alistSet_keys]
        by_cases hm : uid ∈ m.active_connections.map Prod.fst
        · simpa [hm] using h2
        · simp [hm, List.nodup_append, h2]
  | disc ws uid =>
      simp only [applyRegOp, Manager.disconnect]
      rcases hg : alistGet m.active_connections uid with _ | conns
      · exact ⟨h1, h2⟩
      · have hmem : uid ∈ m.active_connections.map Prod.fst := by
          by_contra hc
          rw [(alistGet_eq_none_iff m.active_connections uid).mpr hc] at hg
          cases hg
        dsimp only
        by_cases he : (if ws ∈ conns then conns.erase ws else conns).isEmpty
        · rw [if_pos he]
          refine ⟨fun p hp => h1 p (mem_alistErase _ _ p hp), ?_⟩
          exact h2.sublist (alistErase_keys_sublist m.active_connections uid)
        · rw [if_neg he]
          constructor
          · intro p hp
            rcases mem_alistSet _ _ _ p hp with h | h
            · exact h1 p h
            · subst h
              simpa [List.isEmpty_iff] using he
          · rw [alistSet_keys]
            simpa [hmem] using h2

theorem runRegOps_inv_aux (ops : List RegOp) (m : Manager)
    (h1 : ∀ p ∈ m.active_connections, p.2 ≠ [])
    (h2 : (m.active_connections.map Prod.fst).Nodup) :
    (∀ p ∈ (ops.foldl applyRegOp m).active_connections, p.2 ≠ []) ∧
    ((ops.foldl applyRegOp m).active_connections.map Prod.fst).Nodup := by
  induction ops generalizing m with
  | nil => exact ⟨h1, h2⟩
  | cons op rest ih =>
      have h := applyRegOp_preserves_inv m op h1 h2
      simpa using ih (applyRegOp m op) h.1 h.2

/-! ### Claim theorems -/

/-- Claim C1: `broadcast_to_topic(t, e)` delivers `e` exactly to the
currently-registered connections of the identities in `subscribers_of(t)` —
a pair (identity, connection) receives the event iff the identity is in the
topic's subscriber set, the connection is registered to that identity, and
its send does not fail — and a topic with no subscriber entry is a silent
no-op. -/
theorem broadcast_to_topic_delivers_exactly_to_subscribers
    (m : Manager) (fails : Nat → Bool) (topic uid : String) (ws : Nat) :
    ((uid, ws) ∈ (m.broadcast_to_topic fails topic).1 ↔
      uid ∈ m.subscribers_of topic ∧ ws ∈ m.connections_for uid ∧
        fails ws = false) ∧
    (alistGet m.subscriptions topic = none →
      m.broadcast_to_topic fails topic = ([], [])) := by
  constructor
  · rw [broadcast_to_topic_eq]
    simp only [List.mem_flatMap, List.mem_map, List.mem_filter, Prod.mk.injEq]
    constructor
    · rintro ⟨u, hu, w, ⟨hw, hf⟩, rfl, rfl⟩
      exact ⟨hu, hw, by simpa using hf⟩
    · rintro ⟨hu, hw, hf⟩
      exact ⟨uid, hu, ws, ⟨hw, by simp [hf]⟩, rfl, rfl⟩
  · intro h
    simp [Manager.broadcast_to_topic, h]

theorem broadcast_to_topic_delivers_exactly_to_subscribers_witness :
    ("u", 1) ∈ ((Manager.mk [("u", [1, 2]), ("w", [5])] [("t", ["u", "v"])]).broadcast_to_topic
        (fun ws => ws == 2) "t").1 ∧
    (Manager.mk [("u", [1])] []).broadcast_to_topic (fun _ => false) "t" = ([], []) :=
  ⟨(broadcast_to_topic_delivers_exactly_to_subscribers
      (Manager.mk [("u", [1, 2]), ("w", [5])] [("t", ["u", "v"])])
      (fun ws => ws == 2) "t" "u" 1).1.mpr (by decide),
   (broadcast_to_topic_delivers_exactly_to_subscribers
      (Manager.mk [("u", [1])] []) (fun _ => false) "t" "u" 1).2 (by decide)⟩

/-- Claim C2 counterexample: identity "u" has two connections 1 and 2 and is
subscribed to topic "t"; after `disconnect(1, "u")` its connection list is
still non-empty (connection 2 remains) yet its membership in the subscriber
set of "t" is gone — the source discards the identity from every topic
unconditionally, not only on full disconnect. -/
theorem disconnect_partial_prunes_cex :
    ((Manager.mk [("u", [1, 2])] [("t", ["u"])]).disconnect 1 "u").connections_for "u" = [2] ∧
    "u" ∈ (Manager.mk [("u", [1, 2])] [("t", ["u"])]).subscribers_of "t" ∧
    "u" ∉ ((Manager.mk [("u", [1, 2])] [("t", ["u"])]).disconnect 1 "u").subscribers_of "t" := by
  decide

/-- Claim C2 (amended): `disconnect(connection, identity)` removes the
identity from every topic's subscriber set unconditionally — whether or not
the identity retains other open connections — and leaves every other
identity's topic membership unchanged. -/
theorem disconnect_prunes_subscriptions_always (m : Manager) (ws : Nat)
    (uid topic uid' : String) :
    uid ∉ (m.disconnect ws uid).subscribers_of topic ∧
    (uid' ≠ uid →
      (uid' ∈ (m.disconnect ws uid).subscribers_of topic ↔
        uid' ∈ m.subscribers_of topic)) := by
  have hme : (m.disconnect ws uid).subscriptions
      = m.subscriptions.map (fun p => (p.1, setDiscard p.2 uid)) := rfl
  rcases h : alistGet m.subscriptions topic with _ | s
  · constructor
    · simp [Manager.subscribers_of, hme, alistGet_map_discard, h]
    · intro _
      simp [Manager.subscribers_of, hme, alistGet_map_discard, h]
  · constructor
    · simp [Manager.subscribers_of, hme, alistGet_map_discard, h,
        not_mem_setDiscard_self]
    · intro hne
      simp [Manager.subscribers_of, hme, alistGet_map_discard, h,
        mem_setDiscard, hne]

theorem disconnect_prunes_subscriptions_always_witness :
    "v" ∈ ((Manager.mk [("u", [1])] [("t", ["u", "v"])]).disconnect 1 "u").subscribers_of "t" :=
  ((disconnect_prunes_subscriptions_always
      (Manager.mk [("u", [1])] [("t", ["u", "v"])]) 1 "u" "t" "v").2
    (by decide)).mpr (by decide)

/-- Claim C3: for every finite sequence of connect/disconnect operations
from the empty registry, no identity key is ever mapped to an empty
connection list, and disconnecting an identity's last connection removes
the identity's key in the same step. -/
theorem registry_no_empty_connection_list (ops : List RegOp) (uid : String)
    (ws : Nat) :
    (∀ p ∈ (runRegOps ops).active_connections, p.2 ≠ []) ∧
    ((runRegOps ops).connections_for uid = [ws] →
      alistGet ((runRegOps ops).disconnect ws uid).active_connections uid = none) := by
  have inv := runRegOps_inv_aux ops Manager.empty (by simp [Manager.empty])
    (by simp [Manager.empty])
  refine ⟨inv.1, ?_⟩
  intro hconn
  have hg : alistGet (runRegOps ops).active_connections uid = some [ws] := by
    rcases hga : alistGet (runRegOps ops).active_connections uid with _ | c
    · rw [Manager.connections_for, hga] at hconn
      cases hconn
    · rw [Manager.connections_for, hga] at hconn
      simp only [Option.getD_some] at hconn
      rw [hconn]
  simp only [runRegOps] at hg
  show alistGet _ uid = none
  simp [Manager.disconnect, runRegOps, hg, alistGet_alistErase_self _ uid inv.2]

theorem registry_no_empty_connection_list_witness :
    ("a", [1]) ∈ (runRegOps [RegOp.conn 1 "a"]).active_connections ∧
    ([1] : List Nat) ≠ [] ∧
    alistGet ((runRegOps [RegOp.conn 1 "a"]).disconnect 1 "a").active_connections "a" = none :=
  ⟨by decide,
   (registry_no_empty_connection_list [RegOp.conn 1 "a"] "a" 1).1 ("a", [1]) (by decide),
   (registry_no_empty_connection_list [RegOp.conn 1 "a"] "a" 1).2 (by decide)⟩

/-- Claim C4: `publish_via_redis` delivers an event to each local
connection by at most one path.  With a live broker handle the envelope is
published on the well-known channel and nothing is delivered locally; with
no handle, the local delivery equals the corresponding direct
`broadcast_all` / `send_personal` / `broadcast_to_topic` call, following
the source's own branch conditions on the target string. -/
theorem publish_via_redis_single_delivery_path (m : Manager)
    (fails : Nat → Bool) (target : String) (pf : Bool) :
    ((publish_via_redis m (RedisState.present pf) fails target).delivered = []) ∧
    ((publish_via_redis m (RedisState.present false) fails target).published
      = [("verifiai:ws:broadcast", target)]) ∧
    ((publish_via_redis m RedisState.absent fails target).delivered
      = (dispatchLocal m fails target).1) ∧
    (target = "all" →
      (publish_via_redis m RedisState.absent fails target).delivered
        = (m.broadcast_all fails).1) ∧
    (target ≠ "all" → strStartsWith target "user:" = true →
      (publish_via_redis m RedisState.absent fails target).delivered
        = (m.send_personal fails (strDrop target 5)).1.map
            (fun w => (strDrop target 5, w))) ∧
    (target ≠ "all" → strStartsWith target "user:" = false →
      strStartsWith target "topic:" = true →
      (publish_via_redis m RedisState.absent fails target).delivered
        = (m.broadcast_to_topic fails (strDrop target 6)).1) := by
  refine ⟨?_, rfl, rfl, ?_, ?_, ?_⟩
  · cases pf <;> rfl
  · intro h
    subst h
    simp [publish_via_redis, dispatchLocal]
  · intro h1 h2
    simp [publish_via_redis, dispatchLocal, h1, h2]
  · intro h1 h2 h3
    simp [publish_via_redis, dispatchLocal, h1, h2, h3]

theorem publish_via_redis_single_delivery_path_witness :
    (publish_via_redis (Manager.mk [("bob", [7])] []) RedisState.absent
        (fun _ => false) "user:bob").delivered
      = ((Manager.mk [("bob", [7])] []).send_personal (fun _ => false)
          (strDrop "user:bob" 5)).1.map (fun w => (strDrop "user:bob" 5, w)) :=
  (publish_via_redis_single_delivery_path (Manager.mk [("bob", [7])] [])
      (fun _ => false) "user:bob" false).2.2.2.2.1 (by decide) (by decide)

/-- Claim C5: `send_personal` attempts delivery to every connection of the
identity independently: the delivered list is exactly the non-failing
connections and the failing ones are only logged (the function is total —
no exception reaches the caller), so a connection whose send succeeds
receives the event regardless of failures on the identity's other
connections. -/
theorem send_personal_failure_isolated (m : Manager) (fails : Nat → Bool)
    (uid : String) (ws : Nat) :
    (m.send_personal fails uid =
      ((m.connections_for uid).filter (fun w => !fails w),
       (m.connections_for uid).filter (fun w => fails w))) ∧
    (ws ∈ m.connections_for uid → fails ws = false →
      ws ∈ (m.send_personal fails uid).1) := by
  refine ⟨send_personal_eq m fails uid, ?_⟩
  intro h hf
  rw [send_personal_eq]
  simp [List.mem_filter, h, hf]

theorem send_personal_failure_isolated_witness :
    2 ∈ ((Manager.mk [("u", [1, 2])] []).send_personal (fun w => w == 1) "u").1 :=
  (send_personal_failure_isolated (Manager.mk [("u", [1, 2])] [])
      (fun w => w == 1) "u" 2).2 (by decide) (by decide)

/-- Claim C6: whenever credential verification fails — the external
verifier returns no claims (malformed / invalid signature / expired), the
claims carry no subject, the subject resolves to no user, or the user is
inactive — `verify_ws_token` returns none, and the endpoint then closes
the connection with code 4001 before any registration, leaving the
registry exactly as it was. -/
theorem ws_auth_failure_rejected (vc : String → Option Claims)
    (db : String → Option User) (m : Manager) (ws : Nat) (token : String) :
    (verify_ws_token vc db token = none →
      websocket_endpoint_handshake vc db m ws token =
        ConnectResult.rejected 4001 "Invalid authentication token" m) ∧
    (vc token = none → verify_ws_token vc db token = none) ∧
    (∀ claims, vc token = some claims → claims.sub = none →
      verify_ws_token vc db token = none) ∧
    (∀ claims cid, vc token = some claims → claims.sub = some cid →
      cid ≠ "" → db cid = none → verify_ws_token vc db token = none) ∧
    (∀ claims cid user, vc token = some claims → claims.sub = some cid →
      cid ≠ "" → db cid = some user → user.is_active = false →
      verify_ws_token vc db token = none) := by
  refine ⟨?_, ?_, ?_, ?_, ?_⟩
  · intro h
    simp [websocket_endpoint_handshake, h]
  · intro h
    simp [verify_ws_token, h]
  · intro claims h hs
    simp [verify_ws_token, h, hs]
  · intro claims cid h hs hne hd
    simp [verify_ws_token, h, hs, hne, hd]
  · intro claims cid user h hs hne hd hia
    simp [verify_ws_token, h, hs, hne, hd, hia]

theorem ws_auth_failure_rejected_witness :
    websocket_endpoint_handshake (fun _ => none) (fun _ => none)
      (Manager.mk [] []) 1 "expired-token" =
      ConnectResult.rejected 4001 "Invalid authentication token"
        (Manager.mk [] []) :=
  (ws_auth_failure_rejected (fun _ => none) (fun _ => none)
      (Manager.mk [] []) 1 "expired-token").1
    ((ws_auth_failure_rejected (fun _ => none) (fun _ => none)
      (Manager.mk [] []) 1 "expired-token").2.1 rfl)

/-- Claim C10: when the broker handle is live but the publish call raises,
`publish_via_redis` catches and logs the exception and returns normally —
nothing is published, nothing is delivered locally (the direct-delivery
fallback runs only when the handle is absent). -/
theorem publish_via_redis_catches_broker_failure (m : Manager)
    (fails : Nat → Bool) (target : String) :
    publish_via_redis m (RedisState.present true) fails target
      = { published := [], delivered := [], errors := [], errorLogged := true } :=
  rfl

/-- Claim C7 counterexample: a malformed inbound message (one on which
`receive_json` or the field access raises) is not answered with an
`error`-typed message — the outer exception handler disconnects, removing
the only registration of the identity. -/
theorem malformed_message_disconnects_cex :
    handle_client_message (Manager.mk [("u", [1])] [("t", ["u"])]) 1 "u"
        Inbound.malformed
      = StepResult.disconnected (Manager.mk [] [("t", [])]) ∧
    (Manager.mk [] [("t", [])]).connections_for "u" = [] := by
  decide

/-- Claim C7 (amended): an inbound message that parses as a JSON object
whose action is missing or unknown is answered with an `error`-typed
message on the same connection and the registry is untouched (the loop
continues); a message that does not parse as a JSON object ends the loop
through the exception handler, which unregisters the connection instead of
replying. -/
theorem inbound_message_error_handling (m : Manager) (ws : Nat)
    (uid : String) (action topic : Option String) :
    (action ≠ some "ping" → action ≠ some "subscribe" →
      action ≠ some "unsubscribe" →
      handle_client_message m ws uid (Inbound.msg action topic) =
        StepResult.reply { type := "error", data := MsgData.errorData action } m) ∧
    (handle_client_message m ws uid Inbound.malformed =
      StepResult.disconnected (m.disconnect ws uid)) := by
  constructor
  · intro h1 h2 h3
    simp [handle_client_message, h1, h2, h3]
  · rfl

theorem inbound_message_error_handling_witness :
    handle_client_message (Manager.mk [("u", [1])] []) 1 "u"
        (Inbound.msg (some "bogus") none)
      = StepResult.reply { type := "error", data := MsgData.errorData (some "bogus") }
          (Manager.mk [("u", [1])] []) :=
  (inbound_message_error_handling (Manager.mk [("u", [1])] []) 1 "u"
      (some "bogus") none).1 (by decide) (by decide) (by decide)

/-- Claim C8 counterexample: when the identity is already subscribed to the
topic, `subscribe` is a no-op and the following `unsubscribe` removes it,
so the pair does not restore the subscriber set to its pre-call state. -/
theorem subscribe_unsubscribe_roundtrip_cex :
    (((Manager.mk [] [("t", ["u"])]).subscribe "u" "t").unsubscribe "u" "t").subscribers_of "t"
      ≠ (Manager.mk [] [("t", ["u"])]).subscribers_of "t" := by
  decide

/-- Claim C8 (amended): `subscribe(u, t)` immediately followed by
`unsubscribe(u, t)` leaves `subscribers_of(t)` equal to its prior value
with `u` discarded — hence equal to the prior value exactly when `u` was
not already subscribed — and both operations are idempotent. -/
theorem subscribe_unsubscribe_algebra (m : Manager) (uid topic : String) :
    (((m.subscribe uid topic).unsubscribe uid topic).subscribers_of topic
      = setDiscard (m.subscribers_of topic) uid) ∧
    ((m.subscribe uid topic).subscribe uid topic = m.subscribe uid topic) ∧
    ((m.unsubscribe uid topic).unsubscribe uid topic
      = m.unsubscribe uid topic) ∧
    (uid ∉ m.subscribers_of topic →
      (((m.subscribe uid topic).unsubscribe uid topic).subscribers_of topic
        = m.subscribers_of topic)) := by
  have key : ((m.subscribe uid topic).unsubscribe uid topic).subscriptions
      = alistSet m.subscriptions topic
          (setDiscard ((alistGet m.subscriptions topic).getD []) uid) := by
    simp only [Manager.subscribe, Manager.unsubscribe, alistGet_alistSet_self]
    rw [alistSet_alistSet, setDiscard_setAdd]
  have hrt : ((m.subscribe uid topic).unsubscribe uid topic).subscribers_of topic
      = setDiscard (m.subscribers_of topic) uid := by
    rw [Manager.subscribers_of, key, alistGet_alistSet_self, Option.getD_some,
      Manager.subscribers_of]
  refine ⟨hrt, ?_, ?_, ?_⟩
  · simp only [Manager.subscribe, alistGet_alistSet_self, Option.getD_some,
      setAdd_setAdd, alistSet_alistSet]
  · rcases h : alistGet m.subscriptions topic with _ | s
    · simp only [Manager.unsubscribe, h]
    · simp only [Manager.unsubscribe, h, alistGet_alistSet_self]
      rw [setDiscard_setDiscard, alistSet_alistSet]
  · intro hnm
    rw [hrt]
    exact setDiscard_of_not_mem _ _ hnm

theorem subscribe_unsubscribe_algebra_witness :
    (((Manager.mk [] [("t", ["v"])]).subscribe "u" "t").unsubscribe "u" "t").subscribers_of "t"
      = (Manager.mk [] [("t", ["v"])]).subscribers_of "t" :=
  (subscribe_unsubscribe_algebra (Manager.mk [] [("t", ["v"])]) "u" "t").2.2.2
    (by decide)

/-! ### Handshake subscription lemmas -/

theorem subscribe_subscribers_of_ne (m : Manager) (uid t t' : String)
    (h : t' ≠ t) :
    (m.subscribe uid t).subscribers_of t' = m.subscribers_of t' := by
  simp [Manager.subscribe, Manager.subscribers_of,
    alistGet_alistSet_ne _ _ _ _ h]

theorem mem_subscribers_subscribe_self (m : Manager) (uid t : String) :
    uid ∈ (m.subscribe uid t).subscribers_of t := by
  simp [Manager.subscribe, Manager.subscribers_of, alistGet_alistSet_self,
    mem_setAdd_self]

theorem connect_mem_connections (m : Manager) (ws : Nat) (uid : String) :
    ws ∈ (m.connect ws uid).connections_for uid := by
  simp [Manager.connect, Manager.connections_for, alistGet_alistSet_self]

/-- Claim C9 counterexample: an identity that already has a subscription to
`swarm:42` (legal: subscriptions may exist for a not-yet-connected
identity) connects with a valid credential; after the handshake it is
subscribed to `swarm:42` in addition to the four defaults, so it is not
subscribed to "exactly" the four default topics. -/
theorem connect_defaults_cex :
    websocket_endpoint_handshake (fun _ => some (Claims.mk (some "c")))
        (fun _ => some (User.mk "u1" true))
        (Manager.mk [] [("swarm:42", ["u1"])]) 1 "tok"
      = ConnectResult.accepted "u1"
          (Manager.mk [("u1", [1])]
            [("swarm:42", ["u1"]), ("proofs", ["u1"]), ("agents", ["u1"]),
             ("settlements", ["u1"]), ("platform", ["u1"])])
          (connectedMessage "u1") ∧
    "u1" ∈ (Manager.mk [("u1", [1])]
        [("swarm:42", ["u1"]), ("proofs", ["u1"]), ("agents", ["u1"]),
         ("settlements", ["u1"]), ("platform", ["u1"])]).subscribers_of "swarm:42" ∧
    "swarm:42" ∉ (["proofs", "agents", "settlements", "platform"] : List String) := by
  decide

/-- Claim C9 (amended): a connection attempt with a valid credential is
accepted; after registration the identity is subscribed to at least the
four default topics — exactly those when it had no prior subscriptions
outside them — the new connection is registered, and the first outbound
message is a `connected`-typed message whose data lists the subscriptions
["proofs", "agents", "settlements", "platform"]. -/
theorem connect_grants_default_subscriptions (vc : String → Option Claims)
    (db : String → Option User) (m : Manager) (ws : Nat) (token : String)
    (user : User) (h : verify_ws_token vc db token = some user) :
    (websocket_endpoint_handshake vc db m ws token
      = ConnectResult.accepted user.id
          (websocket_endpoint_handshake vc db m ws token).stateOf
          (connectedMessage user.id)) ∧
    (∀ t, t ∈ (["proofs", "agents", "settlements", "platform"] : List String) →
      user.id ∈ (websocket_endpoint_handshake vc db m ws token).stateOf.subscribers_of t) ∧
    ws ∈ (websocket_endpoint_handshake vc db m ws token).stateOf.connections_for user.id ∧
    (connectedMessage user.id).type = "connected" ∧
    (connectedMessage user.id).data = MsgData.connectedData user.id
      "Connected to VerifiAI real-time updates"
      ["proofs", "agents", "settlements", "platform"] ∧
    (∀ t, t ∉ (["proofs", "agents", "settlements", "platform"] : List String) →
      user.id ∉ m.subscribers_of t →
      user.id ∉ (websocket_endpoint_handshake vc db m ws token).stateOf.subscribers_of t) := by
  have hr : websocket_endpoint_handshake vc db m ws token
      = ConnectResult.accepted user.id
          (((((m.connect ws user.id).subscribe user.id "proofs").subscribe user.id
              "agents").subscribe user.id "settlements").subscribe user.id "platform")
          (connectedMessage user.id) := by
    simp [websocket_endpoint_handshake, h]
  refine ⟨?_, ?_, ?_, rfl, rfl, ?_⟩
  · rw [hr]
    rfl
  · intro t ht
    rw [hr]
    simp only [ConnectResult.stateOf]
    simp only [List.mem_cons, List.not_mem_nil, or_false] at ht
    rcases ht with rfl | rfl | rfl | rfl
    · rw [subscribe_subscribers_of_ne _ _ _ _ (by decide),
        subscribe_subscribers_of_ne _ _ _ _ (by decide),
        subscribe_subscribers_of_ne _ _ _ _ (by decide)]
      exact mem_subscribers_subscribe_self _ _ _
    · rw [subscribe_subscribers_of_ne _ _ _ _ (by decide),
        subscribe_subscribers_of_ne _ _ _ _ (by decide)]
      exact mem_subscribers_subscribe_self _ _ _
    · rw [subscribe_subscribers_of_ne _ _ _ _ (by decide)]
      exact mem_subscribers_subscribe_self _ _ _
    · exact mem_subscribers_subscribe_self _ _ _
  · rw [hr]
    simp only [ConnectResult.stateOf]
    exact connect_mem_connections m ws user.id
  · intro t ht hnm
    rw [hr]
    simp only [ConnectResult.stateOf]
    simp only [List.mem_cons, List.not_mem_nil, or_false, not_or] at ht
    obtain ⟨h1, h2, h3, h4⟩ := ht
    rw [subscribe_subscribers_of_ne _ _ _ _ h4,
      subscribe_subscribers_of_ne _ _ _ _ h3,
      subscribe_subscribers_of_ne _ _ _ _ h2,
      subscribe_subscribers_of_ne _ _ _ _ h1]
    exact hnm

theorem connect_grants_default_subscriptions_witness :
    "u1" ∈ (websocket_endpoint_handshake (fun _ => some (Claims.mk (some "c")))
        (fun _ => some (User.mk "u1" true)) (Manager.mk [] []) 1 "tok").stateOf.subscribers_of
        "proofs" :=
  ((connect_grants_default_subscriptions (fun _ => some (Claims.mk (some "c")))
      (fun _ => some (User.mk "u1" true)) (Manager.mk [] []) 1 "tok"
      (User.mk "u1" true) (by decide)).2.1 "proofs" (by decide))

end VerifiAI
